import Mathlib

/-!
Shallow embedding of the `xml-no-std` streaming XML writer.

The repository sources at hand are `src/writer.rs` (the `EventWriter` facade
and its `write` dispatch) and `src/attribute.rs` (the borrowed/owned attribute
pair and their textual form). The remaining modules of the crate
(`name.rs`, `escape.rs`, `namespace.rs`, `emitter.rs`, `config.rs`,
`events.rs`) are referenced from those two files but their code is not
available; each definition that embeds such a missing module is modelled from
the specification and says so in its doc comment.

Machine integers do not occur in this code; strings are Lean `String`s.
-/

namespace XmlNoStd

/-! ### Qualified names (modelled; `name.rs` is not among the sources) -/

/-- Modelled from the spec: `name.rs` is missing. A qualified name is
`\x7blocal_name, namespace_uri: optional, prefix: optional\x7d`; the borrowed
variant (`Name` in the source) references caller-owned text. In this
embedding strings are values, so the borrowed form carries the same fields as
the owned one. The source field `prefix` is called `pfx` here. -/
structure Name where
  local_name : String
  namespace_uri : Option String
  pfx : Option String
deriving DecidableEq, Repr

/-- Modelled from the spec: `name.rs` is missing. The owned variant of a
qualified name holds independent copies of the three components. -/
structure OwnedName where
  local_name : String
  namespace_uri : Option String
  pfx : Option String
deriving DecidableEq, Repr

/-- Modelled from the spec: the owned→borrowed direction of the name
conversion pair (`OwnedName::borrow` in the crate), a field-wise, copy-free
re-view of the same three components. -/
def OwnedName.borrow (n : OwnedName) : Name :=
  { local_name := n.local_name, namespace_uri := n.namespace_uri, pfx := n.pfx }

/-- Modelled from the spec: the borrowed→owned direction of the name
conversion pair (the `Name → OwnedName` `Into` used by `Attribute::to_owned`),
copying each component. -/
def Name.toOwned (n : Name) : OwnedName :=
  { local_name := n.local_name, namespace_uri := n.namespace_uri, pfx := n.pfx }

/-- Modelled from the spec: string comparison checking equality first, then
order; used to build the owned-name ordering. -/
def strCmp (a b : String) : Ordering :=
  if a = b then .eq else if a < b then .lt else .gt

/-- Modelled from the spec: comparison on optional strings, `none` first. -/
def optStrCmp : Option String → Option String → Ordering
  | none, none => .eq
  | none, some _ => .lt
  | some _, none => .gt
  | some a, some b => strCmp a b

/-- Modelled from the spec: equality for the owned name form compares
`(namespace_uri, local_name)` only; the prefix is presentational and excluded
from identity. -/
def OwnedName.nameEq (a b : OwnedName) : Bool :=
  if a.namespace_uri = b.namespace_uri ∧ a.local_name = b.local_name then true else false

/-- Modelled from the spec: ordering for the owned name form compares
`(namespace_uri, local_name)` only, namespace first. -/
def OwnedName.cmp (a b : OwnedName) : Ordering :=
  (optStrCmp a.namespace_uri b.namespace_uri).then (strCmp a.local_name b.local_name)

/-! ### Escaping engine (modelled; `escape.rs` is not among the sources) -/

/-- The double-quote character. -/
def quotChar : Char := Char.ofNat 34

/-- The apostrophe character. -/
def aposChar : Char := Char.ofNat 39

/-- Modelled from the spec: the escaping engine is context-sensitive, the
context tag being Attribute vs Text (`AttributeEscapes` vs `PcDataEscapes` in
the source's type parameters). -/
inductive EscapeContext where
  | Attribute
  | Text
deriving DecidableEq, Repr

/-- Modelled from the spec: `escape.rs` is missing. Per-character escaping:
`&`, `<`, `>` are replaced by their entities in both contexts; the double
quote and the apostrophe are replaced only in Attribute context; every other
character passes through unchanged. -/
def escapeChar (ctx : EscapeContext) (c : Char) : String :=
  if c = '&' then "&amp;"
  else if c = '<' then "&lt;"
  else if c = '>' then "&gt;"
  else if ctx = .Attribute ∧ c = quotChar then "&quot;"
  else if ctx = .Attribute ∧ c = aposChar then "&apos;"
  else String.singleton c

/-- Modelled from the spec: escaping a string applies the per-character
replacement to each character in order; it is produced incrementally, which a
character-by-character concatenation reflects. -/
def escapeStr (ctx : EscapeContext) (s : String) : String :=
  String.join (s.data.map (escapeChar ctx))

/-- The characters the engine replaces in the given context; all others pass
through unchanged. -/
def escapeSet : EscapeContext → List Char
  | .Text => ['&', '<', '>']
  | .Attribute => ['&', '<', '>', quotChar, aposChar]

/-! ### Attributes (`src/attribute.rs`) -/

/-- A borrowed version of an XML attribute: a borrowed qualified name and a
borrowed string value (`Attribute` in `src/attribute.rs`). -/
structure Attribute where
  name : Name
  value : String
deriving DecidableEq, Repr

/-- An owned version of an XML attribute (`OwnedAttribute` in
`src/attribute.rs`). -/
structure OwnedAttribute where
  name : OwnedName
  value : String
deriving DecidableEq, Repr

/-- Creates an owned attribute out of a borrowed one
(`Attribute::to_owned`). -/
def Attribute.to_owned (a : Attribute) : OwnedAttribute :=
  { name := a.name.toOwned, value := a.value }

/-- Returns a borrowed attribute out of an owned one
(`OwnedAttribute::borrow`). -/
def OwnedAttribute.borrow (a : OwnedAttribute) : Attribute :=
  { name := a.name.borrow, value := a.value }

/-- Modelled from the spec: the textual (`Display`) form of a qualified name,
as exercised by the `attribute_display` test in `src/attribute.rs`:
`\x7buri\x7d` when a namespace is present, then `prefix:` when a prefix is
present, then the local name. -/
def Name.display (n : Name) : String :=
  (match n.namespace_uri with
    | some u => "\x7b" ++ u ++ "\x7d"
    | none => "")
  ++ (match n.pfx with
    | some p => p ++ ":"
    | none => "")
  ++ n.local_name

/-- The textual (`Display`) form of a borrowed attribute, from
`src/attribute.rs`: the name's display form, `="`, the value escaped in
Attribute context, `"`. -/
def Attribute.display (a : Attribute) : String :=
  a.name.display ++ "=" ++ String.singleton quotChar
    ++ escapeStr .Attribute a.value ++ String.singleton quotChar

/-! ### Namespace stack (modelled; `namespace.rs` is not among the sources) -/

/-- Modelled from the spec: a namespace scope is a mapping prefix→URI (the
empty prefix standing for the default namespace). -/
structure NamespaceScope where
  bindings : List (String × String)
deriving DecidableEq, Repr

/-- Modelled from the spec: the empty scope, holding no bindings. -/
def NamespaceScope.empty : NamespaceScope := { bindings := [] }

/-- Modelled from the spec: the namespace stack is an ordered sequence of
scopes, innermost first. -/
structure NamespaceStack where
  scopes : List NamespaceScope
deriving DecidableEq, Repr

/-- Modelled from the spec: `push_empty` begins a new (empty) scope for the
element about to open. -/
def NamespaceStack.push_empty (s : NamespaceStack) : NamespaceStack :=
  { scopes := NamespaceScope.empty :: s.scopes }

/-- Modelled from the spec: `try_pop` removes the top scope on element close
and returns it; popping an empty stack is a safe no-op returning `none`,
never an error. -/
def NamespaceStack.try_pop (s : NamespaceStack) : Option NamespaceScope × NamespaceStack :=
  match s.scopes with
  | [] => (none, s)
  | t :: rest => (some t, { scopes := rest })

/-- Modelled from the spec: bulk extend (the `checked_target().extend(..)` at
the `StartElement` arm of `EventWriter::write`) inserts the given bindings
into the top scope, shadowing outer bindings for this subtree. On an empty
stack there is no scope to receive them and the stack is unchanged. -/
def NamespaceStack.extendTop (s : NamespaceStack) (bs : List (String × String)) :
    NamespaceStack :=
  match s.scopes with
  | [] => s
  | t :: rest => { scopes := { bindings := t.bindings ++ bs } :: rest }

/-- Modelled from the spec: `resolve` is an innermost-first lookup of a
prefix, inner scopes shadowing outer ones. -/
def NamespaceStack.resolve (s : NamespaceStack) (p : String) : Option String :=
  (s.scopes.findSome? fun sc => (sc.bindings.reverse.find? fun b => b.1 = p)).map (·.2)

/-! ### Configuration (modelled; `config.rs` is not among the sources) -/

/-- Modelled from the spec: `config.rs` is missing. The immutable set of
named options bound once at writer construction (§6 of the spec). -/
structure EmitterConfig where
  line_separator : String
  indent_char : Char
  indent_size : Nat
  perform_indent : Bool
  perform_escaping : Bool
  write_document_declaration : Bool
  normalize_empty_elements : Bool
  cdata_to_characters : Bool
  pad_self_closing : Bool
deriving DecidableEq, Repr

/-- Modelled from the spec: the default configuration built by
`EmitterConfig::new()` — no indentation, escaping on, declaration auto-write
on, empty elements collapsed, CDATA kept literal, self-closing tags padded. -/
def EmitterConfig.new : EmitterConfig :=
  { line_separator := "\n"
    indent_char := ' '
    indent_size := 2
    perform_indent := false
    perform_escaping := true
    write_document_declaration := true
    normalize_empty_elements := true
    cdata_to_characters := false
    pad_self_closing := true }

/-! ### Events (`events.rs` is not among the sources; the variants and their
fields are those matched on in `EventWriter::write`) -/

/-- The closed tagged union of document events, with the variants and fields
destructured by `EventWriter::write` in `src/writer.rs`. -/
inductive XmlEvent where
  | StartDocument (version : String) (encoding : Option String) (standalone : Option Bool)
  | ProcessingInstruction (nm : String) (data : Option String)
  | StartElement (nm : Name) (attributes : List Attribute)
      (namespaceBindings : List (String × String))
  | EndElement (nm : Option Name)
  | Comment (content : String)
  | CData (content : String)
  | Characters (content : String)
deriving DecidableEq, Repr

/-! ### Emitter (modelled; `emitter.rs` is not among the sources) -/

/-- Modelled from the spec: the error kinds of §7 that can surface from the
event-submission calls visible in `src/writer.rs`. Sink write failures do
not arise: the sink is an in-memory `String`. -/
inductive EmitterError where
  | DocumentStartAlreadyEmitted
  | DocumentStartAfterRootOpened
  | UnexpectedProcessingInstruction
  | EndElementNameIsNotSpecified
  | EndElementNameIsNotEqualToLastStartElementName
  | IllegalCommentContent
deriving DecidableEq, Repr

/-- Modelled from the spec: the emitter owns the namespace stack, a parallel
stack of open element names (for end-tag mismatch detection), and the
"pending open tag" flag; the current depth is the length of the open-name
stack. `start_document_emitted` records that the prolog was written. -/
structure Emitter where
  config : EmitterConfig
  nst : NamespaceStack
  element_names : List OwnedName
  start_document_emitted : Bool
  just_wrote_start_element : Bool
deriving DecidableEq, Repr

/-- Modelled from the spec: `Emitter::new(config)` starts with an empty
namespace stack, no open elements, nothing emitted and no pending tag. -/
def Emitter.new (config : EmitterConfig) : Emitter :=
  { config := config
    nst := { scopes := [] }
    element_names := []
    start_document_emitted := false
    just_wrote_start_element := false }

/-- The current nesting depth: the number of open elements. -/
def Emitter.depth (e : Emitter) : Nat := e.element_names.length

/-- Modelled from the spec: resolving a pending open tag — if a start tag's
terminator is still withheld, terminate it with `>` (never `/>`, since the
element is about to gain content) and clear the flag. -/
def Emitter.resolvePending (e : Emitter) (sink : String) : Emitter × String :=
  if e.just_wrote_start_element then
    ({ e with just_wrote_start_element := false }, sink ++ ">")
  else
    (e, sink)

/-- Modelled from the spec: newline plus depth-proportional indentation
before a structural tag when `perform_indent` is set and output has already
been produced. -/
def Emitter.indentation (e : Emitter) (sink : String) : String :=
  if e.config.perform_indent ∧ sink ≠ "" then
    e.config.line_separator
      ++ String.mk (List.replicate (e.config.indent_size * e.depth) e.config.indent_char)
  else ""

/-- Modelled from the spec: the qualified-name form written inside tags,
`prefix:local` when a prefix is present, the bare local name otherwise. -/
def OwnedName.qualName (n : OwnedName) : String :=
  (match n.pfx with | some p => p ++ ":" | none => "") ++ n.local_name

/-- The qualified-name form of a borrowed name, via its owned view. -/
def Name.qualName (n : Name) : String := n.toOwned.qualName

/-- Modelled from the spec: `emit_start_document` writes the XML declaration
`<?xml version=".." encoding=".." standalone=".."?>`; it fails if the prolog
was already written or if the root element has already been opened, mutating
nothing in that case. -/
def Emitter.emit_start_document (e : Emitter) (sink : String) (version : String)
    (encoding : String) (standalone : Option Bool) :
    Emitter × String × Except EmitterError Unit :=
  if e.start_document_emitted then
    (e, sink, .error .DocumentStartAlreadyEmitted)
  else if e.element_names ≠ [] then
    (e, sink, .error .DocumentStartAfterRootOpened)
  else
    ({ e with start_document_emitted := true },
     sink ++ "<?xml version=" ++ String.singleton quotChar ++ version
          ++ String.singleton quotChar ++ " encoding=" ++ String.singleton quotChar
          ++ encoding ++ String.singleton quotChar
          ++ (match standalone with
              | some true => " standalone=" ++ String.singleton quotChar ++ "yes"
                  ++ String.singleton quotChar
              | some false => " standalone=" ++ String.singleton quotChar ++ "no"
                  ++ String.singleton quotChar
              | none => "")
          ++ "?>",
     .ok ())

/-- Modelled from the spec: `emit_processing_instruction` writes
`<?name data?>` (or `<?name?>` without data); it fails, mutating nothing, if
the name case-insensitively equals `xml`, which is reserved for the
declaration. -/
def Emitter.emit_processing_instruction (e : Emitter) (sink : String) (nm : String)
    (data : Option String) : Emitter × String × Except EmitterError Unit :=
  if nm.toLower = "xml" then
    (e, sink, .error .UnexpectedProcessingInstruction)
  else
    let p := e.resolvePending sink
    (p.1,
     p.2 ++ "<?" ++ nm ++ (match data with | some d => " " ++ d | none => "") ++ "?>",
     .ok ())

/-- The serialized form of one attribute inside a start tag:
a space, the qualified name, `="`, the escaped value, `"`. -/
def attrInTag (performEscaping : Bool) (a : Attribute) : String :=
  " " ++ a.name.qualName ++ "=" ++ String.singleton quotChar
    ++ (if performEscaping then escapeStr .Attribute a.value else a.value)
    ++ String.singleton quotChar

/-- The serialized form of one namespace binding inside a start tag:
`xmlns="uri"` for the empty prefix, `xmlns:p="uri"` otherwise. -/
def nsDeclInTag (b : String × String) : String :=
  " xmlns" ++ (if b.1 = "" then "" else ":" ++ b.1) ++ "=" ++ String.singleton quotChar
    ++ b.2 ++ String.singleton quotChar

/-- Modelled from the spec: `emit_start_element` first resolves any pending
open tag with `>`, writes indentation if configured, then `<prefix:local`,
each attribute in submitted order (duplicates pass through), then the
namespace declarations newly bound in this element's scope; it marks the tag
pending and pushes the element's name onto the open-name stack. It does not
touch the namespace stack — the caller (`EventWriter::write`) has already
pushed this element's scope. No failure conditions exist for it. -/
def Emitter.emit_start_element (e : Emitter) (sink : String) (nm : Name)
    (attributes : List Attribute) : Emitter × String :=
  let p := e.resolvePending sink
  let e1 := p.1
  let newScope : List (String × String) :=
    match e1.nst.scopes with
    | [] => []
    | t :: _ => t.bindings
  let s2 := p.2 ++ e1.indentation p.2 ++ "<" ++ nm.qualName
    ++ String.join (attributes.map (attrInTag e1.config.perform_escaping))
    ++ String.join (newScope.map nsDeclInTag)
  ({ e1 with
      element_names := nm.toOwned :: e1.element_names
      just_wrote_start_element := true },
   s2)

/-- Modelled from the spec: `emit_end_element` pops the open-name stack; with
no open element it fails, mutating nothing. If an explicit name was supplied
and does not equal the popped open-name (names compare by
`(namespace_uri, local_name)`), it fails with the mismatch error — the pop of
the open-name stack still occurs, since the structural nesting already
closed, but no markup is written. Otherwise, if the matching start tag is
still pending, `normalize_empty_elements` chooses between `/>` (with a space
before it when `pad_self_closing` is set) and an expanded `></prefix:local>`
pair; without a pending tag it writes `</prefix:local>`. It does not touch
the namespace stack — the caller (`EventWriter::write`) pops it. -/
def Emitter.emit_end_element (e : Emitter) (sink : String) (nm : Option Name) :
    Emitter × String × Except EmitterError Unit :=
  match e.element_names with
  | [] => (e, sink, .error .EndElementNameIsNotSpecified)
  | last :: rest =>
    let popped : Emitter := { e with element_names := rest, just_wrote_start_element := false }
    let mismatch : Bool :=
      match nm with
      | some n => ! OwnedName.nameEq n.toOwned last
      | none => false
    if mismatch then
      (popped, sink, .error .EndElementNameIsNotEqualToLastStartElementName)
    else if e.just_wrote_start_element then
      if e.config.normalize_empty_elements then
        (popped, sink ++ (if e.config.pad_self_closing then " />" else "/>"), .ok ())
      else
        (popped, sink ++ "></" ++ last.qualName ++ ">", .ok ())
    else
      (popped, sink ++ popped.indentation sink ++ "</" ++ last.qualName ++ ">", .ok ())

/-- Whether `pat` occurs as a contiguous run inside `s`. -/
def hasSubSeq (pat : List Char) : List Char → Bool
  | [] => pat.isPrefixOf []
  | c :: rest => pat.isPrefixOf (c :: rest) || hasSubSeq pat rest

/-- Modelled from the spec: `emit_comment` writes `<!--text-->`; it fails,
mutating nothing, if the text contains `--` or ends with `-`, both illegal
per the XML grammar. -/
def Emitter.emit_comment (e : Emitter) (sink : String) (content : String) :
    Emitter × String × Except EmitterError Unit :=
  if hasSubSeq ['-', '-'] content.data ∨ content.endsWith "-" then
    (e, sink, .error .IllegalCommentContent)
  else
    let p := e.resolvePending sink
    (p.1, p.2 ++ "<!--" ++ content ++ "-->", .ok ())

/-- Modelled from the spec: `emit_characters` writes the text through the
escaping engine in Text context unless `perform_escaping` is disabled,
resolving a pending open tag first. Its call site in `EventWriter::write`
(line 67 of `src/writer.rs`) wraps it in `Ok`, fixing its return type as
infallible, so it returns only the updated emitter and sink. -/
def Emitter.emit_characters (e : Emitter) (sink : String) (content : String) :
    Emitter × String :=
  let p := e.resolvePending sink
  (p.1,
   p.2 ++ (if e.config.perform_escaping then escapeStr .Text content else content))

/-- Modelled from the spec: `emit_cdata` redirects through the Text-context
escaping engine when `cdata_to_characters` is set, and otherwise writes
`<![CDATA[text]]>` verbatim, resolving a pending open tag first. The spec
describes a failure on text containing `]]>`; its call site in
`EventWriter::write` (line 66 of `src/writer.rs`) wraps the call in `Ok`,
which fixes the return type as infallible, so no such failure can surface
and the content is written unchecked. -/
def Emitter.emit_cdata (e : Emitter) (sink : String) (content : String) :
    Emitter × String :=
  if e.config.cdata_to_characters then
    e.emit_characters sink content
  else
    let p := e.resolvePending sink
    (p.1, p.2 ++ "<![CDATA[" ++ content ++ "]]>")

/-! ### The writer facade (`src/writer.rs`) -/

/-- The `EventWriter`: an in-memory `String` sink plus an `Emitter`
(`src/writer.rs` lines 20–23). -/
structure EventWriter where
  sink : String
  emitter : Emitter
deriving DecidableEq, Repr

/-- `EventWriter::new_with_config`: an empty sink and a fresh emitter. -/
def EventWriter.new_with_config (config : EmitterConfig) : EventWriter :=
  { sink := "", emitter := Emitter.new config }

/-- `EventWriter::new`: the default configuration. -/
def EventWriter.new : EventWriter := EventWriter.new_with_config EmitterConfig.new

/-- `EventWriter::write`, the event dispatch of `src/writer.rs` lines 50–69:
* `StartDocument` passes `encoding.unwrap_or("UTF-8")` to the emitter;
* `StartElement` pushes one empty namespace scope, extends it with the
  event's bindings, then emits the start tag;
* `EndElement` emits the end tag, then pops the namespace stack
  (`try_pop`) regardless of the emit result `r`, and returns `r`;
* `CData` and `Characters` wrap their emit calls in `Ok`. -/
def EventWriter.write (w : EventWriter) (event : XmlEvent) :
    EventWriter × Except EmitterError Unit :=
  match event with
  | .StartDocument version encoding standalone =>
    let t := w.emitter.emit_start_document w.sink version (encoding.getD "UTF-8") standalone
    ({ sink := t.2.1, emitter := t.1 }, t.2.2)
  | .ProcessingInstruction nm data =>
    let t := w.emitter.emit_processing_instruction w.sink nm data
    ({ sink := t.2.1, emitter := t.1 }, t.2.2)
  | .StartElement nm attributes namespaceBindings =>
    let em0 := { w.emitter with
      nst := (w.emitter.nst.push_empty).extendTop namespaceBindings }
    let t := em0.emit_start_element w.sink nm attributes
    ({ sink := t.2, emitter := t.1 }, Except.ok ())
  | .EndElement nm =>
    let t := w.emitter.emit_end_element w.sink nm
    ({ sink := t.2.1, emitter := { t.1 with nst := (t.1.nst.try_pop).2 } }, t.2.2)
  | .Comment content =>
    let t := w.emitter.emit_comment w.sink content
    ({ sink := t.2.1, emitter := t.1 }, t.2.2)
  | .CData content =>
    let t := w.emitter.emit_cdata w.sink content
    ({ sink := t.2, emitter := t.1 }, Except.ok ())
  | .Characters content =>
    let t := w.emitter.emit_characters w.sink content
    ({ sink := t.2, emitter := t.1 }, Except.ok ())

/-- The namespace-stack depth of a writer. -/
def EventWriter.nsDepth (w : EventWriter) : Nat := w.emitter.nst.scopes.length

/-- The state reached after `write`; the result is discarded, as the writer
itself remains usable either way. -/
def EventWriter.writeState (w : EventWriter) (event : XmlEvent) : EventWriter :=
  (w.write event).1

/-- Submitting a sequence of events in order, threading the writer state. -/
def processEvents (w : EventWriter) : List XmlEvent → EventWriter
  | [] => w
  | e :: rest => processEvents (w.writeState e) rest

/-- Whether an event is a `StartElement`. -/
def XmlEvent.isStart : XmlEvent → Bool
  | .StartElement .. => true
  | _ => false

/-- Whether an event is an `EndElement`. -/
def XmlEvent.isEnd : XmlEvent → Bool
  | .EndElement _ => true
  | _ => false

/-- The number of `StartElement` events in a sequence. -/
def startCount (l : List XmlEvent) : Nat := (l.filter XmlEvent.isStart).length

/-- The number of `EndElement` events in a sequence. -/
def endCount (l : List XmlEvent) : Nat := (l.filter XmlEvent.isEnd).length

/-- Every prefix of the sequence has at least as many `StartElement` events
as `EndElement` events (the sequence never closes more than it has opened). -/
def prefixBalancedB (l : List XmlEvent) : Bool :=
  (List.range (l.length + 1)).all fun n =>
    endCount (l.take n) ≤ startCount (l.take n)

/-! ### Theorems -/

/-- C3: for every input string, the escaping engine replaces `&` with
`&amp;`, `<` with `&lt;` and `>` with `&gt;` in both contexts; it replaces
the double quote with `&quot;` and the apostrophe with `&apos;` in Attribute
context only, leaving both untouched in Text context; every other character
passes through unchanged; and escaping distributes over concatenation, so
the whole string is the per-character images in order. -/
theorem escaping_engine_contract (ctx : EscapeContext) (s t : String) (c : Char)
    (hc : (escapeSet ctx).contains c = false) :
    escapeStr ctx (s ++ t) = escapeStr ctx s ++ escapeStr ctx t
    ∧ escapeStr ctx (String.singleton c) = String.singleton c
    ∧ escapeChar ctx c = String.singleton c
    ∧ escapeChar ctx '&' = "&amp;"
    ∧ escapeChar ctx '<' = "&lt;"
    ∧ escapeChar ctx '>' = "&gt;"
    ∧ escapeChar .Attribute quotChar = "&quot;"
    ∧ escapeChar .Attribute aposChar = "&apos;"
    ∧ escapeChar .Text quotChar = String.singleton quotChar
    ∧ escapeChar .Text aposChar = String.singleton aposChar := by
  have hthru : escapeChar ctx c = String.singleton c := by
    cases ctx <;> simp [escapeSet, List.contains, quotChar, aposChar] at hc <;>
      simp [escapeChar, hc, quotChar, aposChar]
  refine ⟨?_, ?_, hthru, ?_, ?_, ?_, by decide, by decide, by decide, by decide⟩
  · apply String.ext
    simp [escapeStr, String.data_join]
  · apply String.ext
    simp [escapeStr, String.data_join, String.singleton, hthru]
  all_goals cases ctx <;> rfl

/-- Witness for C3 at a concrete non-special character and concrete
strings. -/
theorem escaping_engine_contract_witness :
    (escapeSet .Text).contains 'x' = false
    ∧ escapeStr .Text ("ab" ++ "c") = escapeStr .Text "ab" ++ escapeStr .Text "c"
    ∧ escapeChar .Text 'x' = String.singleton 'x' :=
  ⟨by decide,
   (escaping_engine_contract .Text "ab" "c" 'x' (by decide)).1,
   (escaping_engine_contract .Text "ab" "c" 'x' (by decide)).2.2.1⟩

/-- C4: the textual (`Display`) form of the attribute with local name
`attribute`, namespace `urn:namespace`, prefix `n` and value
`its value with > & " ' < weird symbols` is exactly
`\x7burn:namespace\x7dn:attribute="its value with &gt; &amp; &quot; &apos;
&lt; weird symbols"`, matching the `attribute_display` test in
`src/attribute.rs`. -/
theorem attribute_display_concrete :
    Attribute.display
      { name := { local_name := "attribute"
                  namespace_uri := some "urn:namespace"
                  pfx := some "n" }
        value := "its value with > & \x22 \x27 < weird symbols" }
      = "\x7burn:namespace\x7dn:attribute=\x22its value with &gt; &amp; &quot; &apos; &lt; weird symbols\x22" := by
  decide

/-- C7: the borrowed/owned attribute conversions round-trip without loss,
in both directions, field by field; they are pure functions with no failure
modes. -/
theorem attribute_conversion_roundtrip (a : Attribute) (o : OwnedAttribute) :
    a.to_owned.borrow = a ∧ o.borrow.to_owned = o := by
  constructor
  · cases a with
    | mk n v => cases n; rfl
  · cases o with
    | mk n v => cases n; rfl

/-- C8: equality and ordering on the owned name form — and hence on the name
component of `OwnedAttribute` — compare only `(namespace_uri, local_name)`:
any two owned names agreeing on those two fields compare equal, whatever
their prefixes. -/
theorem owned_name_identity_ignores_prefix (a b : OwnedName) (x y : OwnedAttribute)
    (hu : a.namespace_uri = b.namespace_uri) (hl : a.local_name = b.local_name)
    (hxu : x.name.namespace_uri = y.name.namespace_uri)
    (hxl : x.name.local_name = y.name.local_name) :
    OwnedName.nameEq a b = true
    ∧ OwnedName.cmp a b = .eq
    ∧ OwnedName.nameEq x.name y.name = true := by
  refine ⟨by simp [OwnedName.nameEq, hu, hl], ?_, by simp [OwnedName.nameEq, hxu, hxl]⟩
  rw [OwnedName.cmp, hu, hl]
  cases b.namespace_uri <;> simp [optStrCmp, strCmp, Ordering.then]

/-- Witness for C8: two concrete owned names (and two owned attributes)
differing only in prefix compare equal. -/
theorem owned_name_identity_ignores_prefix_witness :
    OwnedName.nameEq
        { local_name := "a", namespace_uri := some "u", pfx := some "p" }
        { local_name := "a", namespace_uri := some "u", pfx := some "q" } = true
    ∧ OwnedName.cmp
        { local_name := "a", namespace_uri := some "u", pfx := some "p" }
        { local_name := "a", namespace_uri := some "u", pfx := some "q" } = .eq := by
  have h := owned_name_identity_ignores_prefix
    { local_name := "a", namespace_uri := some "u", pfx := some "p" }
    { local_name := "a", namespace_uri := some "u", pfx := some "q" }
    { name := { local_name := "a", namespace_uri := some "u", pfx := some "p" }, value := "v" }
    { name := { local_name := "a", namespace_uri := some "u", pfx := some "q" }, value := "w" }
    (by decide) (by decide) (by decide) (by decide)
  exact ⟨h.1, h.2.1⟩

/-- C9: a `StartDocument` event with an absent encoding behaves exactly as
one with encoding `UTF-8` — `EventWriter::write` passes
`encoding.unwrap_or("UTF-8")` to the emitter — and on a fresh writer the
emitted declaration names `UTF-8`. -/
theorem start_document_defaults_encoding_utf8 (w : EventWriter) (version : String)
    (standalone : Option Bool) :
    w.write (.StartDocument version none standalone)
      = w.write (.StartDocument version (some "UTF-8") standalone)
    ∧ (EventWriter.new.write (.StartDocument "1.0" none none)).1.sink
      = "<?xml version=\x221.0\x22 encoding=\x22UTF-8\x22?>" :=
  ⟨rfl, by decide⟩

/-- C10: `EventWriter::write` with a `Characters` event returns `Ok` for
every text input and every writer state — the arm wraps the emit call in
`Ok`, so no error branch exists at the public interface. -/
theorem characters_write_always_ok (w : EventWriter) (content : String) :
    (w.write (.Characters content)).2 = Except.ok () := rfl

/-- Counterexample to C2 as stated: with the default configuration, where
`cdata_to_characters` is disabled, writing a `CData` event whose text is the
terminator `]]>` itself returns `Ok`, not the illegal-CDATA-content error. -/
theorem cdata_terminator_write_returns_ok :
    EmitterConfig.new.cdata_to_characters = false
    ∧ (EventWriter.new.write (.CData "]]>")).2 = Except.ok ()
    ∧ (EventWriter.new.write (.CData "]]>")).1.sink = "<![CDATA[]]>]]>" :=
  ⟨by decide, rfl, by decide⟩

/-- C2 as amended: when `cdata_to_characters` is disabled, writing a `CData`
event whose text contains `]]>` returns `Ok` and writes the content verbatim
inside the CDATA markers — `EventWriter::write` wraps `emit_cdata` in `Ok`
(`src/writer.rs` line 66), so the illegal-terminator content is not
rejected. -/
theorem cdata_write_infallible (w : EventWriter) (content : String)
    (hredir : w.emitter.config.cdata_to_characters = false)
    (_hterm : hasSubSeq [']', ']', '>'] content.data = true) :
    (w.write (.CData content)).2 = Except.ok ()
    ∧ (w.write (.CData content)).1.sink
      = (w.emitter.resolvePending w.sink).2 ++ "<![CDATA[" ++ content ++ "]]>" := by
  refine ⟨rfl, ?_⟩
  simp [EventWriter.write, Emitter.emit_cdata, hredir]

/-- Witness for C2's amended statement on a fresh default writer and the
content `a]]>b`. -/
theorem cdata_write_infallible_witness :
    (EventWriter.new.write (.CData "a]]>b")).2 = Except.ok ()
    ∧ (EventWriter.new.write (.CData "a]]>b")).1.sink
      = (EventWriter.new.emitter.resolvePending EventWriter.new.sink).2
        ++ "<![CDATA[" ++ "a]]>b" ++ "]]>" :=
  cdata_write_infallible EventWriter.new "a]]>b" (by decide) (by decide)

/-! ### Namespace-stack depth bookkeeping -/

/-- Resolving a pending tag touches only the pending flag and the sink. -/
theorem resolvePending_preserves (e : Emitter) (sink : String) :
    ((e.resolvePending sink).1).nst = e.nst
    ∧ ((e.resolvePending sink).1).element_names = e.element_names
    ∧ ((e.resolvePending sink).1).config = e.config := by
  unfold Emitter.resolvePending
  split <;> simp

/-- Inserting bindings into the top scope does not change the number of
scopes. -/
theorem extendTop_length (s : NamespaceStack) (bs : List (String × String)) :
    (s.extendTop bs).scopes.length = s.scopes.length := by
  unfold NamespaceStack.extendTop
  cases h : s.scopes <;> simp [h]

/-- Closing an element never touches the emitter's namespace stack: the pop
happens in `EventWriter::write`, not in `emit_end_element`. -/
theorem emit_end_element_preserves_nst (e : Emitter) (sink : String) (nm : Option Name) :
    ((e.emit_end_element sink nm).1).nst = e.nst := by
  unfold Emitter.emit_end_element
  cases h : e.element_names with
  | nil => rfl
  | cons last rest =>
    simp only
    split
    · rfl
    · split
      · split <;> rfl
      · rfl

/-- Closing an element pops the open-name stack to its tail in every branch
other than the empty-stack error, where it stays empty; as a length, one
entry is removed (`Nat` truncated subtraction covering the empty case). -/
theorem emit_end_element_element_names (e : Emitter) (sink : String) (nm : Option Name) :
    ((e.emit_end_element sink nm).1).element_names = e.element_names.tail := by
  unfold Emitter.emit_end_element
  cases h : e.element_names with
  | nil => simp [h]
  | cons last rest =>
    simp only
    split
    · simp [h]
    · split
      · split <;> simp [h]
      · simp [h]

/-- A `StartElement` write pushes exactly one namespace scope and one
open-element name. -/
theorem writeState_start_element (w : EventWriter) (nm : Name)
    (attributes : List Attribute) (ns : List (String × String)) :
    (w.writeState (.StartElement nm attributes ns)).nsDepth = w.nsDepth + 1
    ∧ (w.writeState (.StartElement nm attributes ns)).emitter.element_names.length
      = w.emitter.element_names.length + 1 := by
  unfold EventWriter.writeState EventWriter.write Emitter.emit_start_element
  constructor
  · simp [EventWriter.nsDepth, (resolvePending_preserves _ _).1, extendTop_length,
      NamespaceStack.push_empty]
  · simp [(resolvePending_preserves _ _).2.1]

/-- The dropped-scope component of `try_pop` is the tail of the scope list,
both on empty and on non-empty stacks. -/
theorem try_pop_scopes (s : NamespaceStack) : (s.try_pop).2.scopes = s.scopes.tail := by
  unfold NamespaceStack.try_pop
  cases h : s.scopes <;> simp [h]

/-- An `EndElement` write pops exactly one namespace scope — the stack goes
to its tail whether or not `emit_end_element` succeeded — and one
open-element name; on empty stacks both pops are safe no-ops. -/
theorem writeState_end_element (w : EventWriter) (nm : Option Name) :
    (w.writeState (.EndElement nm)).emitter.nst.scopes = w.emitter.nst.scopes.tail
    ∧ (w.writeState (.EndElement nm)).nsDepth = w.nsDepth - 1
    ∧ (w.writeState (.EndElement nm)).emitter.element_names.length
      = w.emitter.element_names.length - 1 := by
  have htail : (w.writeState (.EndElement nm)).emitter.nst.scopes
      = w.emitter.nst.scopes.tail := by
    show (((w.emitter.emit_end_element w.sink nm).1).nst.try_pop).2.scopes = _
    rw [try_pop_scopes, emit_end_element_preserves_nst]
  refine ⟨htail, ?_, ?_⟩
  · simp [EventWriter.nsDepth, htail]
  · show ((w.emitter.emit_end_element w.sink nm).1).element_names.length = _
    rw [emit_end_element_element_names, List.length_tail]

/-- Events other than `StartElement`/`EndElement` leave the namespace stack
and the open-element stack untouched. -/
theorem writeState_other (w : EventWriter) (e : XmlEvent)
    (hs : e.isStart = false) (he : e.isEnd = false) :
    (w.writeState e).emitter.nst = w.emitter.nst
    ∧ (w.writeState e).emitter.element_names = w.emitter.element_names := by
  cases e with
  | StartElement nm attributes ns => simp [XmlEvent.isStart] at hs
  | EndElement nm => simp [XmlEvent.isEnd] at he
  | StartDocument version encoding standalone =>
    simp only [EventWriter.writeState, EventWriter.write, Emitter.emit_start_document]
    split
    · simp
    · split <;> simp
  | ProcessingInstruction nm data =>
    simp only [EventWriter.writeState, EventWriter.write,
      Emitter.emit_processing_instruction]
    split
    · simp
    · simp [(resolvePending_preserves _ _).1, (resolvePending_preserves _ _).2.1]
  | Comment content =>
    simp only [EventWriter.writeState, EventWriter.write, Emitter.emit_comment]
    split
    · simp
    · simp [(resolvePending_preserves _ _).1, (resolvePending_preserves _ _).2.1]
  | CData content =>
    simp only [EventWriter.writeState, EventWriter.write, Emitter.emit_cdata]
    split
    · simp only [Emitter.emit_characters]
      simp [(resolvePending_preserves _ _).1, (resolvePending_preserves _ _).2.1]
    · simp [(resolvePending_preserves _ _).1, (resolvePending_preserves _ _).2.1]
  | Characters content =>
    simp only [EventWriter.writeState, EventWriter.write, Emitter.emit_characters]
    simp [(resolvePending_preserves _ _).1, (resolvePending_preserves _ _).2.1]

/-- `StartElement`/`EndElement` counting over a cons. -/
theorem startCount_cons (e : XmlEvent) (t : List XmlEvent) :
    startCount (e :: t) = (if e.isStart then 1 else 0) + startCount t := by
  cases h : e.isStart <;> simp [startCount, List.filter_cons, h]
  omega

/-- `EndElement` counting over a cons. -/
theorem endCount_cons (e : XmlEvent) (t : List XmlEvent) :
    endCount (e :: t) = (if e.isEnd then 1 else 0) + endCount t := by
  cases h : e.isEnd <;> simp [endCount, List.filter_cons, h]
  omega

/-- No event is both a `StartElement` and an `EndElement`. -/
theorem isStart_isEnd_exclusive (e : XmlEvent) : ¬(e.isStart = true ∧ e.isEnd = true) := by
  cases e <;> simp [XmlEvent.isStart, XmlEvent.isEnd]

/-- Depth step for any event that is a `StartElement`. -/
theorem nsDepth_writeState_isStart (w : EventWriter) (e : XmlEvent)
    (hs : e.isStart = true) :
    (w.writeState e).nsDepth = w.nsDepth + 1
    ∧ (w.writeState e).emitter.element_names.length
      = w.emitter.element_names.length + 1 := by
  cases e <;> simp [XmlEvent.isStart] at hs
  exact writeState_start_element w _ _ _

/-- Depth step for any event that is an `EndElement`. -/
theorem nsDepth_writeState_isEnd (w : EventWriter) (e : XmlEvent)
    (hE : e.isEnd = true) :
    (w.writeState e).nsDepth = w.nsDepth - 1
    ∧ (w.writeState e).emitter.element_names.length
      = w.emitter.element_names.length - 1 := by
  cases e <;> simp [XmlEvent.isEnd] at hE
  exact ⟨(writeState_end_element w _).2.1, (writeState_end_element w _).2.2⟩

/-- Depth step for the five non-structural event kinds. -/
theorem nsDepth_writeState_isOther (w : EventWriter) (e : XmlEvent)
    (hs : e.isStart = false) (hE : e.isEnd = false) :
    (w.writeState e).nsDepth = w.nsDepth
    ∧ (w.writeState e).emitter.element_names.length
      = w.emitter.element_names.length := by
  have h := writeState_other w e hs hE
  exact ⟨by simp [EventWriter.nsDepth, h.1], by rw [h.2]⟩

/-- Main bookkeeping identity: over any event sequence in which no prefix
closes more elements than it has opened (relative to the starting depth),
the final namespace-stack depth plus the number of `EndElement` events
equals the starting depth plus the number of `StartElement` events. -/
theorem process_depth_count (l : List XmlEvent) :
    ∀ (w : EventWriter),
      (∀ n, endCount (l.take n) ≤ startCount (l.take n) + w.nsDepth) →
      (processEvents w l).nsDepth + endCount l = w.nsDepth + startCount l := by
  induction l with
  | nil =>
    intro w _
    simp [processEvents, startCount, endCount]
  | cons e t ih =>
    intro w h
    have hstep : processEvents w (e :: t) = processEvents (w.writeState e) t := rfl
    rw [hstep, startCount_cons, endCount_cons]
    by_cases hs : e.isStart = true
    · have hE : e.isEnd = false := by
        have := isStart_isEnd_exclusive e
        cases hx : e.isEnd
        · rfl
        · exact absurd ⟨hs, hx⟩ this
      have hd := (nsDepth_writeState_isStart w e hs).1
      have hcond : ∀ n, endCount (t.take n) ≤ startCount (t.take n)
          + (w.writeState e).nsDepth := by
        intro n
        have hn := h (n + 1)
        rw [List.take_succ_cons, startCount_cons, endCount_cons, hs, hE] at hn
        simp at hn
        omega
      have hIH := ih (w.writeState e) hcond
      rw [hs, hE]
      simp
      omega
    · simp at hs
      by_cases hE : e.isEnd = true
      · have h1 := h 1
        have ht1 : (e :: t).take 1 = [e] := rfl
        rw [ht1, startCount_cons, endCount_cons, hs, hE] at h1
        simp [startCount, endCount] at h1
        have hd := (nsDepth_writeState_isEnd w e hE).1
        have hcond : ∀ n, endCount (t.take n) ≤ startCount (t.take n)
            + (w.writeState e).nsDepth := by
          intro n
          have hn := h (n + 1)
          rw [List.take_succ_cons, startCount_cons, endCount_cons, hs, hE] at hn
          simp at hn
          omega
        have hIH := ih (w.writeState e) hcond
        rw [hs, hE]
        simp
        omega
      · simp at hE
        have hd := (nsDepth_writeState_isOther w e hs hE).1
        have hcond : ∀ n, endCount (t.take n) ≤ startCount (t.take n)
            + (w.writeState e).nsDepth := by
          intro n
          have hn := h (n + 1)
          rw [List.take_succ_cons, startCount_cons, endCount_cons, hs, hE] at hn
          simp at hn
          omega
        have hIH := ih (w.writeState e) hcond
        rw [hs, hE]
        simp
        omega

/-- The namespace-stack depth always equals the number of open element
names: the two stacks move in lockstep under every event, balanced or
not. -/
theorem process_depth_eq_open (l : List XmlEvent) :
    ∀ (w : EventWriter),
      w.nsDepth = w.emitter.element_names.length →
      (processEvents w l).nsDepth
        = (processEvents w l).emitter.element_names.length := by
  induction l with
  | nil => intro w h; exact h
  | cons e t ih =>
    intro w h
    have hstep : processEvents w (e :: t) = processEvents (w.writeState e) t := rfl
    rw [hstep]
    apply ih
    by_cases hs : e.isStart = true
    · have hd := nsDepth_writeState_isStart w e hs
      omega
    · simp at hs
      by_cases hE : e.isEnd = true
      · have hd := nsDepth_writeState_isEnd w e hE
        omega
      · simp at hE
        have hd := nsDepth_writeState_isOther w e hs hE
        omega

/-- A sequence accepted by `prefixBalancedB` whose start and end counts
agree never closes more than it has opened, at any cut point. -/
theorem prefixBalanced_all (l : List XmlEvent) (hb : prefixBalancedB l = true)
    (hbal : startCount l = endCount l) :
    ∀ n, endCount (l.take n) ≤ startCount (l.take n) := by
  intro n
  by_cases hn : n ≤ l.length
  · have hall := List.all_eq_true.mp hb n (by simp [List.mem_range]; omega)
    exact of_decide_eq_true hall
  · rw [List.take_of_length_le (by omega)]
    omega

/-- C1: each `StartElement` write pushes exactly one namespace scope and
each `EndElement` write pops exactly one (the stack goes to its tail whether
or not the element rendered self-closing — the writer pops unconditionally);
consequently, after any matched (balanced) sequence of events the
namespace-stack depth returns to 0, and at every intermediate cut point it
equals the number of currently-open elements, which is the number of opens
minus the number of closes so far. -/
theorem namespace_scope_per_element (cfg : EmitterConfig) (l : List XmlEvent)
    (hpre : prefixBalancedB l = true) (hbal : startCount l = endCount l) :
    (∀ (w : EventWriter) (nm : Name) (attributes : List Attribute)
        (ns : List (String × String)),
        (w.writeState (.StartElement nm attributes ns)).nsDepth = w.nsDepth + 1)
    ∧ (∀ (w : EventWriter) (nm : Option Name),
        (w.writeState (.EndElement nm)).emitter.nst.scopes
          = w.emitter.nst.scopes.tail)
    ∧ (processEvents (EventWriter.new_with_config cfg) l).nsDepth = 0
    ∧ ∀ n,
        (processEvents (EventWriter.new_with_config cfg) (l.take n)).nsDepth
          = (processEvents (EventWriter.new_with_config cfg)
              (l.take n)).emitter.element_names.length
        ∧ (processEvents (EventWriter.new_with_config cfg) (l.take n)).nsDepth
            + endCount (l.take n) = startCount (l.take n) := by
  have hall := prefixBalanced_all l hpre hbal
  have hzero : (EventWriter.new_with_config cfg).nsDepth = 0 := rfl
  refine ⟨fun w nm attributes ns => (writeState_start_element w nm attributes ns).1,
    fun w nm => (writeState_end_element w nm).1, ?_, ?_⟩
  · have hmain := process_depth_count l (EventWriter.new_with_config cfg)
      (by intro n; rw [hzero]; simpa using hall n)
    rw [hzero] at hmain
    omega
  · intro n
    have hmain := process_depth_count (l.take n) (EventWriter.new_with_config cfg)
      (by
        intro m
        rw [hzero, List.take_take]
        simpa using hall (min m n))
    rw [hzero] at hmain
    refine ⟨process_depth_eq_open (l.take n) (EventWriter.new_with_config cfg) rfl, ?_⟩
    omega

/-- A small balanced event sequence for the C1 witness: two nested elements
with character content, closed in order. -/
def demoEvents : List XmlEvent :=
  [.StartElement { local_name := "a", namespace_uri := none, pfx := none } [] [],
   .StartElement { local_name := "b", namespace_uri := none, pfx := none } [] [],
   .Characters "hi",
   .EndElement none,
   .EndElement (some { local_name := "a", namespace_uri := none, pfx := none })]

/-- Witness for C1 on a concrete balanced sequence. -/
theorem namespace_scope_per_element_witness :
    prefixBalancedB demoEvents = true
    ∧ startCount demoEvents = endCount demoEvents
    ∧ (processEvents (EventWriter.new_with_config EmitterConfig.new) demoEvents).nsDepth
      = 0 :=
  ⟨by decide, by decide,
   (namespace_scope_per_element EmitterConfig.new demoEvents (by decide) (by decide)).2.2.1⟩

/-- C5: an `EndElement` write carrying an explicit name different from the
innermost open element returns the mismatch error, and the namespace stack
is still popped exactly once — `EventWriter::write` pops it regardless of
the result of `emit_end_element`. -/
theorem end_element_mismatch_pops_scope (w : EventWriter) (wrong : Name)
    (last : OwnedName) (rest : List OwnedName)
    (hstack : w.emitter.element_names = last :: rest)
    (hne : OwnedName.nameEq wrong.toOwned last = false) :
    (w.write (.EndElement (some wrong))).2
      = Except.error EmitterError.EndElementNameIsNotEqualToLastStartElementName
    ∧ (w.writeState (.EndElement (some wrong))).emitter.nst.scopes
      = w.emitter.nst.scopes.tail
    ∧ (w.writeState (.EndElement (some wrong))).nsDepth = w.nsDepth - 1 := by
  refine ⟨?_, (writeState_end_element w (some wrong)).1,
    (writeState_end_element w (some wrong)).2.1⟩
  show (w.emitter.emit_end_element w.sink (some wrong)).2.2 = _
  unfold Emitter.emit_end_element
  rw [hstack]
  simp [hne]

/-- A writer with one concrete open element, for the C5 witness. -/
def demoOpenWriter : EventWriter :=
  EventWriter.new.writeState
    (.StartElement { local_name := "a", namespace_uri := none, pfx := none } [] [])

/-- The state reached from `demoOpenWriter` by a close under the wrong
explicit name `b`. -/
def demoMismatchClosed : EventWriter :=
  demoOpenWriter.writeState
    (.EndElement (some { local_name := "b", namespace_uri := none, pfx := none }))

/-- Witness for C5: closing the open `a` element under the explicit name `b`
errors while the namespace stack still shrinks to empty. -/
theorem end_element_mismatch_pops_scope_witness :
    (demoOpenWriter.write
        (.EndElement (some { local_name := "b", namespace_uri := none, pfx := none }))).2
      = Except.error EmitterError.EndElementNameIsNotEqualToLastStartElementName
    ∧ demoMismatchClosed.emitter.nst.scopes = demoOpenWriter.emitter.nst.scopes.tail :=
  ⟨(end_element_mismatch_pops_scope demoOpenWriter
      { local_name := "b", namespace_uri := none, pfx := none }
      { local_name := "a", namespace_uri := none, pfx := none } []
      (by decide) (by decide)).1,
   (end_element_mismatch_pops_scope demoOpenWriter
      { local_name := "b", namespace_uri := none, pfx := none }
      { local_name := "a", namespace_uri := none, pfx := none } []
      (by decide) (by decide)).2.1⟩

/-- C6: popping an empty namespace stack is a safe no-op — `try_pop` returns
`none` and the stack unchanged, with no error — and an `EndElement` write on
a writer whose namespace stack is already empty leaves the depth at 0. -/
theorem try_pop_empty_is_noop (s : NamespaceStack) (w : EventWriter) (nm : Option Name)
    (hs : s.scopes = []) (hw : w.nsDepth = 0) :
    s.try_pop = (none, s)
    ∧ (w.writeState (.EndElement nm)).nsDepth = 0
    ∧ (w.writeState (.EndElement nm)).emitter.nst.scopes = [] := by
  have hempty : w.emitter.nst.scopes = [] := by
    have : w.emitter.nst.scopes.length = 0 := hw
    exact List.length_eq_zero.mp this
  refine ⟨?_, ?_, ?_⟩
  · unfold NamespaceStack.try_pop
    rw [hs]
  · rw [(writeState_end_element w nm).2.1, hw]
  · rw [(writeState_end_element w nm).1, hempty]
    rfl

/-- Witness for C6 on the empty stack and a fresh writer. -/
theorem try_pop_empty_is_noop_witness :
    NamespaceStack.try_pop { scopes := [] }
      = (none, ({ scopes := [] } : NamespaceStack))
    ∧ (EventWriter.new.writeState (.EndElement none)).nsDepth = 0 :=
  ⟨(try_pop_empty_is_noop { scopes := [] } EventWriter.new none rfl rfl).1,
   (try_pop_empty_is_noop { scopes := [] } EventWriter.new none rfl rfl).2.1⟩

end XmlNoStd
